import Mathlib

/-!
# Verification of the raw syscall invocation layer (rustix, linux_raw backend)

A shallow embedding of the riscv32 inline-assembly syscall backend
(`src/imp/linux_raw/arch/inline/riscv32.rs`), the backend-selection and
dispatch logic (`src/imp/linux_raw/arch/mod.rs`), and the directory test
(`tests/fs/dir.rs`), together with proofs of the specification's claims
about them.

Machine words are modelled as `Nat` with explicit `2 ^ width` bounds where
the width matters (riscv32 has `width = 32`).  Each inline-assembly block
of the source is transcribed into an `AsmCall` value recording, in source
order, the register inputs, the instruction template, the output register
and the declared assembly options; a small operational semantics (`runAsm`)
over register files gives the machine behavior, with the kernel's action at
the trap instruction left as an arbitrary function on register files.
-/

namespace RawSyscall

/-- The riscv32 registers named by the inline assembly blocks. -/
inductive Reg
  | a0 | a1 | a2 | a3 | a4 | a5 | a7
deriving DecidableEq, Repr

/-- The instruction templates of this backend contain only the trap
instruction `ecall`. -/
inductive Instr
  | ecall
deriving DecidableEq, BEq, Repr

/-- The assembly options that appear in the source's `options(...)` lists. -/
inductive AsmOpt
  | nostack
  | preserves_flags
  | readonly
  | noreturn
deriving DecidableEq, BEq, Repr

/-- Transcription of one `asm!` block: the register inputs in source order,
the instruction template, the register the result is read from (`none` for
the no-return form, which has no output operand), and the declared
options. -/
structure AsmCall where
  ins : List (Reg × Nat)
  template : List Instr
  outReg : Option Reg
  opts : List AsmOpt
deriving Repr

/-- A register file: the values held by the registers. -/
def RegFile := Reg → Nat

/-- Write one register. -/
def writeReg (r : Reg) (v : Nat) (s : RegFile) : RegFile :=
  fun q => if q = r then v else s q

/-- Populate the input registers, in source order. -/
def applyIns : List (Reg × Nat) → RegFile → RegFile
  | [], s => s
  | (r, v) :: rest, s => applyIns rest (writeReg r v s)

/-- The kernel's action at a trap: an arbitrary transformation of the
register file (in particular it decides the value of `a0` after the
trap). -/
def Kernel := RegFile → RegFile

/-- Run the instruction template: each `ecall` performs one privilege
transition, i.e. one application of the kernel's action. -/
def runTemplate (k : Kernel) : List Instr → RegFile → RegFile
  | [], s => s
  | Instr.ecall :: rest, s => runTemplate k rest (k s)

/-- Machine behavior of a transcribed `asm!` block: populate the input
registers, run the template, then read the output register (if the block
has one) from the final state, with nothing in between. -/
def runAsm (k : Kernel) (c : AsmCall) (s : RegFile) : Option Nat :=
  match c.outReg with
  | none => none
  | some r => some (runTemplate k c.template (applyIns c.ins s) r)

end RawSyscall

namespace RawSyscall

/-! ## Transcriptions of the riscv32 inline backend functions -/

/-- `syscall0_readonly` in `inline/riscv32.rs`. -/
def syscall0_readonly (nr : Nat) : AsmCall :=
  { ins := [(Reg.a7, nr)]
    template := [Instr.ecall]
    outReg := some Reg.a0
    opts := [AsmOpt.nostack, AsmOpt.preserves_flags, AsmOpt.readonly] }

/-- `syscall1` in `inline/riscv32.rs`. -/
def syscall1 (nr a0 : Nat) : AsmCall :=
  { ins := [(Reg.a7, nr), (Reg.a0, a0)]
    template := [Instr.ecall]
    outReg := some Reg.a0
    opts := [AsmOpt.nostack, AsmOpt.preserves_flags] }

/-- `syscall1_readonly` in `inline/riscv32.rs`. -/
def syscall1_readonly (nr a0 : Nat) : AsmCall :=
  { ins := [(Reg.a7, nr), (Reg.a0, a0)]
    template := [Instr.ecall]
    outReg := some Reg.a0
    opts := [AsmOpt.nostack, AsmOpt.preserves_flags, AsmOpt.readonly] }

/-- `syscall1_noreturn` in `inline/riscv32.rs`: no output operand, return
type `!`, `options(noreturn)`. -/
def syscall1_noreturn (nr a0 : Nat) : AsmCall :=
  { ins := [(Reg.a7, nr), (Reg.a0, a0)]
    template := [Instr.ecall]
    outReg := none
    opts := [AsmOpt.noreturn] }

/-- `syscall2` in `inline/riscv32.rs`. -/
def syscall2 (nr a0 a1 : Nat) : AsmCall :=
  { ins := [(Reg.a7, nr), (Reg.a0, a0), (Reg.a1, a1)]
    template := [Instr.ecall]
    outReg := some Reg.a0
    opts := [AsmOpt.nostack, AsmOpt.preserves_flags] }

/-- `syscall2_readonly` in `inline/riscv32.rs`. -/
def syscall2_readonly (nr a0 a1 : Nat) : AsmCall :=
  { ins := [(Reg.a7, nr), (Reg.a0, a0), (Reg.a1, a1)]
    template := [Instr.ecall]
    outReg := some Reg.a0
    opts := [AsmOpt.nostack, AsmOpt.preserves_flags, AsmOpt.readonly] }

/-- `syscall3` in `inline/riscv32.rs`. -/
def syscall3 (nr a0 a1 a2 : Nat) : AsmCall :=
  { ins := [(Reg.a7, nr), (Reg.a0, a0), (Reg.a1, a1), (Reg.a2, a2)]
    template := [Instr.ecall]
    outReg := some Reg.a0
    opts := [AsmOpt.nostack, AsmOpt.preserves_flags] }

/-- `syscall3_readonly` in `inline/riscv32.rs`. -/
def syscall3_readonly (nr a0 a1 a2 : Nat) : AsmCall :=
  { ins := [(Reg.a7, nr), (Reg.a0, a0), (Reg.a1, a1), (Reg.a2, a2)]
    template := [Instr.ecall]
    outReg := some Reg.a0
    opts := [AsmOpt.nostack, AsmOpt.preserves_flags, AsmOpt.readonly] }

/-- `syscall4` in `inline/riscv32.rs`. -/
def syscall4 (nr a0 a1 a2 a3 : Nat) : AsmCall :=
  { ins := [(Reg.a7, nr), (Reg.a0, a0), (Reg.a1, a1), (Reg.a2, a2), (Reg.a3, a3)]
    template := [Instr.ecall]
    outReg := some Reg.a0
    opts := [AsmOpt.nostack, AsmOpt.preserves_flags] }

/-- `syscall4_readonly` in `inline/riscv32.rs`. -/
def syscall4_readonly (nr a0 a1 a2 a3 : Nat) : AsmCall :=
  { ins := [(Reg.a7, nr), (Reg.a0, a0), (Reg.a1, a1), (Reg.a2, a2), (Reg.a3, a3)]
    template := [Instr.ecall]
    outReg := some Reg.a0
    opts := [AsmOpt.nostack, AsmOpt.preserves_flags, AsmOpt.readonly] }

/-- `syscall5` in `inline/riscv32.rs`. -/
def syscall5 (nr a0 a1 a2 a3 a4 : Nat) : AsmCall :=
  { ins := [(Reg.a7, nr), (Reg.a0, a0), (Reg.a1, a1), (Reg.a2, a2), (Reg.a3, a3),
            (Reg.a4, a4)]
    template := [Instr.ecall]
    outReg := some Reg.a0
    opts := [AsmOpt.nostack, AsmOpt.preserves_flags] }

/-- `syscall5_readonly` in `inline/riscv32.rs`. -/
def syscall5_readonly (nr a0 a1 a2 a3 a4 : Nat) : AsmCall :=
  { ins := [(Reg.a7, nr), (Reg.a0, a0), (Reg.a1, a1), (Reg.a2, a2), (Reg.a3, a3),
            (Reg.a4, a4)]
    template := [Instr.ecall]
    outReg := some Reg.a0
    opts := [AsmOpt.nostack, AsmOpt.preserves_flags, AsmOpt.readonly] }

/-- `syscall6` in `inline/riscv32.rs`. -/
def syscall6 (nr a0 a1 a2 a3 a4 a5 : Nat) : AsmCall :=
  { ins := [(Reg.a7, nr), (Reg.a0, a0), (Reg.a1, a1), (Reg.a2, a2), (Reg.a3, a3),
            (Reg.a4, a4), (Reg.a5, a5)]
    template := [Instr.ecall]
    outReg := some Reg.a0
    opts := [AsmOpt.nostack, AsmOpt.preserves_flags] }

/-- `syscall6_readonly` in `inline/riscv32.rs`. -/
def syscall6_readonly (nr a0 a1 a2 a3 a4 a5 : Nat) : AsmCall :=
  { ins := [(Reg.a7, nr), (Reg.a0, a0), (Reg.a1, a1), (Reg.a2, a2), (Reg.a3, a3),
            (Reg.a4, a4), (Reg.a5, a5)]
    template := [Instr.ecall]
    outReg := some Reg.a0
    opts := [AsmOpt.nostack, AsmOpt.preserves_flags, AsmOpt.readonly] }

/-- The three call classifications of the spec's data model. -/
inductive Classification
  | plain
  | readonly
  | noreturn
deriving DecidableEq, Repr

/-- The function surface of the riscv32 inline backend, indexed by arity and
classification: exactly the functions defined in `inline/riscv32.rs`, each
taking the operation number and the argument list (consumed positionally).
Arities or classifications with no function in the file map to `none`. -/
def riscv32_backend : Nat → Classification → Option (Nat → List Nat → AsmCall)
  | 0, Classification.readonly => some fun nr _ => syscall0_readonly nr
  | 1, Classification.plain => some fun nr a => syscall1 nr (a.getD 0 0)
  | 1, Classification.readonly => some fun nr a => syscall1_readonly nr (a.getD 0 0)
  | 1, Classification.noreturn => some fun nr a => syscall1_noreturn nr (a.getD 0 0)
  | 2, Classification.plain => some fun nr a => syscall2 nr (a.getD 0 0) (a.getD 1 0)
  | 2, Classification.readonly => some fun nr a => syscall2_readonly nr (a.getD 0 0) (a.getD 1 0)
  | 3, Classification.plain =>
      some fun nr a => syscall3 nr (a.getD 0 0) (a.getD 1 0) (a.getD 2 0)
  | 3, Classification.readonly =>
      some fun nr a => syscall3_readonly nr (a.getD 0 0) (a.getD 1 0) (a.getD 2 0)
  | 4, Classification.plain =>
      some fun nr a => syscall4 nr (a.getD 0 0) (a.getD 1 0) (a.getD 2 0) (a.getD 3 0)
  | 4, Classification.readonly =>
      some fun nr a => syscall4_readonly nr (a.getD 0 0) (a.getD 1 0) (a.getD 2 0) (a.getD 3 0)
  | 5, Classification.plain =>
      some fun nr a =>
        syscall5 nr (a.getD 0 0) (a.getD 1 0) (a.getD 2 0) (a.getD 3 0) (a.getD 4 0)
  | 5, Classification.readonly =>
      some fun nr a =>
        syscall5_readonly nr (a.getD 0 0) (a.getD 1 0) (a.getD 2 0) (a.getD 3 0) (a.getD 4 0)
  | 6, Classification.plain =>
      some fun nr a =>
        syscall6 nr (a.getD 0 0) (a.getD 1 0) (a.getD 2 0) (a.getD 3 0) (a.getD 4 0)
          (a.getD 5 0)
  | 6, Classification.readonly =>
      some fun nr a =>
        syscall6_readonly nr (a.getD 0 0) (a.getD 1 0) (a.getD 2 0) (a.getD 3 0) (a.getD 4 0)
          (a.getD 5 0)
  | _, _ => none

/-- The designated argument register for each positional argument slot on
riscv32 (`a0` through `a5`). -/
def argRegName : Nat → Reg
  | 0 => Reg.a0
  | 1 => Reg.a1
  | 2 => Reg.a2
  | 3 => Reg.a3
  | 4 => Reg.a4
  | _ => Reg.a5

/-! ## Register marshaling (spec-modelled: `reg.rs` is not among the shown
source files; only the architecture backends and dispatch macros that call
it are). -/

/-- A decoded result word: either a successful payload or an error
identifier. -/
inductive SyscallResult
  | success (payload : Nat)
  | error (errno : Nat)
deriving DecidableEq, Repr

/-- The signed interpretation of a `width`-bit machine word
(two's complement). -/
def toSigned (width w : Nat) : Int :=
  if w < 2 ^ (width - 1) then (w : Int) else (w : Int) - ((2 ^ width : Nat) : Int)

/-- Modelled from the spec: `from_raw` of §4.1 (the result-word decode of
`reg.rs`, not among the shown files).  Operationally the Linux raw-syscall
convention compares the word, as unsigned, against the top 4095 values of
the word range: a word in `[2 ^ width - 4095, 2 ^ width - 1]` is a negated
error identifier, whose magnitude is `2 ^ width - w`; every other word is a
successful payload. -/
def from_raw (width w : Nat) : SyscallResult :=
  if 2 ^ width - 4095 ≤ w then SyscallResult.error (2 ^ width - w)
  else SyscallResult.success w

/-- Modelled from the spec: `to_raw` of §4.1 (the argument conversion of
`reg.rs`, not among the shown files): each logical value, already given by
its machine-word representation, converts bit-exactly to the raw word. -/
def to_raw (v : Nat) : Nat := v

/-! ## Backend selection (`arch/mod.rs`) -/

/-- The target architectures named by the `cfg` attributes of
`arch/mod.rs`. -/
inductive TargetArch
  | arm | aarch64 | mips | mips64 | powerpc64 | riscv64 | x86_64 | x86
deriving DecidableEq, Repr

/-- The three invocation backends selection can produce. -/
inductive BackendChoice
  | inlineAsm
  | outlineAsm
  | x86ViaVdso
deriving DecidableEq, Repr

/-- The `asm` module of `arch/mod.rs`: its path is `inline/mod.rs` when the
target supports inline assembly (`cfg(asm)`) and `outline/mod.rs`
otherwise. -/
def asm_module (asmSupported : Bool) : BackendChoice :=
  if asmSupported then BackendChoice.inlineAsm else BackendChoice.outlineAsm

/-- The `choose` alias of `arch/mod.rs`: on arm, aarch64, mips, mips64,
powerpc64, riscv64 and x86_64 it is the `asm` module; on 32-bit x86 it is
the vDSO wrapper module `x86_via_vdso`, unconditionally. -/
def choose (arch : TargetArch) (asmSupported : Bool) : BackendChoice :=
  match arch with
  | TargetArch.x86 => BackendChoice.x86ViaVdso
  | _ => asm_module asmSupported

/-- Modelled from the spec: the out-of-line backend (its `.s` files are not
among the shown sources) exposes an identical function surface to the
inline backend, per §4.3. -/
def outline_surface : Nat → Classification → Option (Nat → List Nat → AsmCall) :=
  riscv32_backend

/-! ## Dispatch (the `syscall!` / `syscall_readonly!` macro family of
`arch/mod.rs`): resolve the symbolic name through the architecture's
number table (`linux_raw_sys::general`), convert it with `nr`, convert
each argument with `.into()` in positional order, and call the chosen
backend function of matching arity and classification.  `nrConv` and
`argConv` stand for the `nr` and `.into()` conversions of `reg.rs`. -/

def invoke (kernel : Kernel) (s : RegFile) (table : String → Nat)
    (nrConv argConv : Nat → Nat) (arity : Nat) (c : Classification)
    (name : String) (args : List Nat) : Option Nat :=
  match riscv32_backend arity c with
  | none => none
  | some f => runAsm kernel (f (nrConv (table name)) (args.map argConv)) s

/-! ## The directory test (`tests/fs/dir.rs`) -/

/-- The three `saw_*` flags of `test_dir`. -/
structure DirScan where
  saw_dot : Bool
  saw_dotdot : Bool
  saw_cargo_toml : Bool
deriving DecidableEq, Repr

/-- One iteration of the `for entry in dir` loop of `test_dir`. -/
def scanEntry (st : DirScan) (name : String) : DirScan :=
  if name = "." then { st with saw_dot := true }
  else if name = ".." then { st with saw_dotdot := true }
  else if name = "Cargo.toml" then { st with saw_cargo_toml := true }
  else st

/-- The whole scanning loop of `test_dir`, starting from all-false flags. -/
def test_dir_scan (entries : List String) : DirScan :=
  entries.foldl scanEntry ⟨false, false, false⟩

/-- Modelled from the spec: the directory enumeration of the end-to-end
scenario (implemented by the `Dir` component, not among the shown files)
yields exactly one occurrence each of ".", ".." and "Cargo.toml" — none
missing and none duplicated. -/
def specDirEnumeration (entries : List String) : Prop :=
  entries.count "." = 1 ∧ entries.count ".." = 1 ∧ entries.count "Cargo.toml" = 1

/-- Modelled from the spec: `openat` (implemented outside the shown files)
succeeds on the scenario's two requests — opening "." relative to the
current directory and opening "Cargo.toml" relative to the resulting
descriptor — returning a usable descriptor. -/
def openat_model (dirfd : Nat) (path : String) : Option Nat :=
  if path = "." ∨ path = "Cargo.toml" then some (dirfd + 1) else none

/-! ## Case analysis over the backend family -/

/-- For every function the riscv32 inline backend provides: the template is
exactly one trap instruction; the input operand list writes the operation
number to `a7` and argument `i` to `argRegName i`, all registers distinct;
the returning forms read `a0` right after the trap and carry the `nostack`
and `preserves_flags` options; the no-return form has no output operand and
carries exactly the `noreturn` option. -/
theorem riscv32_backend_cases (arity : Nat) (c : Classification)
    (f : Nat → List Nat → AsmCall) (h : riscv32_backend arity c = some f)
    (nr : Nat) (args : List Nat) (s : RegFile) :
    (f nr args).template = [Instr.ecall]
    ∧ (f nr args).ins.map Prod.fst = Reg.a7 :: (List.range arity).map argRegName
    ∧ List.Pairwise (fun a b => a ≠ b) (Reg.a7 :: (List.range arity).map argRegName)
    ∧ applyIns (f nr args).ins s Reg.a7 = nr
    ∧ (∀ i, i < arity → applyIns (f nr args).ins s (argRegName i) = args.getD i 0)
    ∧ (c = Classification.plain →
        (f nr args).opts = [AsmOpt.nostack, AsmOpt.preserves_flags])
    ∧ (c = Classification.readonly →
        (f nr args).opts = [AsmOpt.nostack, AsmOpt.preserves_flags, AsmOpt.readonly])
    ∧ (c = Classification.noreturn →
        (f nr args).outReg = none ∧ (f nr args).opts = [AsmOpt.noreturn])
    ∧ (c ≠ Classification.noreturn →
        (f nr args).outReg = some Reg.a0
        ∧ ∀ kernel : Kernel,
            runAsm kernel (f nr args) s
              = some (kernel (applyIns (f nr args).ins s) Reg.a0)) := by
  cases c <;> rcases arity with _ | _ | _ | _ | _ | _ | _ | _ | n <;>
    first
    | exact Option.noConfusion h
    | (obtain rfl := Option.some.inj h
       exact ⟨rfl, rfl, by decide, rfl,
         fun i hi => by first | (interval_cases i <;> rfl) | omega,
         fun _ => rfl,
         fun hc => Classification.noConfusion hc,
         fun hc => Classification.noConfusion hc,
         fun hc => ⟨rfl, fun kernel => rfl⟩⟩)
    | (obtain rfl := Option.some.inj h
       exact ⟨rfl, rfl, by decide, rfl,
         fun i hi => by first | (interval_cases i <;> rfl) | omega,
         fun hc => Classification.noConfusion hc,
         fun _ => rfl,
         fun hc => Classification.noConfusion hc,
         fun hc => ⟨rfl, fun kernel => rfl⟩⟩)
    | (obtain rfl := Option.some.inj h
       exact ⟨rfl, rfl, by decide, rfl,
         fun i hi => by first | (interval_cases i <;> rfl) | omega,
         fun hc => Classification.noConfusion hc,
         fun hc => Classification.noConfusion hc,
         fun _ => ⟨rfl, rfl⟩,
         fun hc => absurd rfl hc⟩)

end RawSyscall

namespace RawSyscall

/-- Claim C3: every invocation function of the riscv32 inline backend places the
operation number in `a7` and argument `i` in its designated register
`argRegName i` (all registers disjoint) before the trap; its template is
exactly one `ecall`; and the returning forms read the result from `a0` of
the state produced by the single kernel transition, with no intervening
operation. -/
theorem c3_register_discipline (arity : Nat) (c : Classification)
    (f : Nat → List Nat → AsmCall) (h : riscv32_backend arity c = some f)
    (nr : Nat) (args : List Nat) (s : RegFile) (kernel : Kernel) :
    (f nr args).template.count Instr.ecall = 1
    ∧ (f nr args).template = [Instr.ecall]
    ∧ applyIns (f nr args).ins s Reg.a7 = nr
    ∧ (∀ i, i < arity → applyIns (f nr args).ins s (argRegName i) = args.getD i 0)
    ∧ List.Pairwise (fun a b => a ≠ b) ((f nr args).ins.map Prod.fst)
    ∧ (c ≠ Classification.noreturn →
        (f nr args).outReg = some Reg.a0
        ∧ runAsm kernel (f nr args) s
            = some (kernel (applyIns (f nr args).ins s) Reg.a0)) := by
  obtain ⟨ht, hmap, hpw, ha7, hargs, hpl, hro, hnoret, hret⟩ :=
    riscv32_backend_cases arity c f h nr args s
  refine ⟨by rw [ht]; rfl, ht, ha7, hargs, hmap ▸ hpw, fun hc => ?_⟩
  obtain ⟨ho, hrun⟩ := hret hc
  exact ⟨ho, hrun kernel⟩

/-- Witness for C3 at a concrete instance: `syscall2` with operation number
93 and arguments 5, 7 populates `a7` with 93 and, under the identity
kernel action, returns the `a0` of the populated state. -/
theorem c3_register_discipline_witness :
    applyIns (syscall2 93 5 7).ins (fun _ => 0) Reg.a7 = 93
    ∧ runAsm (fun st => st) (syscall2 93 5 7) (fun _ => 0)
        = some (applyIns (syscall2 93 5 7).ins (fun _ => 0) Reg.a0) := by
  have h := c3_register_discipline 2 Classification.plain
    (fun nr a => syscall2 nr (a.getD 0 0) (a.getD 1 0)) rfl 93 [5, 7]
    (fun _ => 0) (fun st => st)
  exact ⟨h.2.2.1, (h.2.2.2.2.2 (by decide)).2⟩

/-- Claim C2 counterexample: the riscv32 inline backend has no Plain arity-0
function (arity 0 exists only in ReadOnly form, `syscall0_readonly`), and
it has no arity-7 function in either classification. -/
theorem c2_surface_counterexample :
    (riscv32_backend 0 Classification.plain).isSome = false
    ∧ (riscv32_backend 7 Classification.plain).isSome = false
    ∧ (riscv32_backend 7 Classification.readonly).isSome = false :=
  ⟨rfl, rfl, rfl⟩

/-- Claim C2 amended: the riscv32 inline backend provides an invocation function
exactly for arities 1 through 6 in Plain, arities 0 through 6 in ReadOnly,
and arity 1 in NoReturn; it provides no arity-7 function. -/
theorem c2_surface_amended (arity : Nat) (c : Classification) :
    (riscv32_backend arity c).isSome = true
      ↔ ((c = Classification.plain ∧ 1 ≤ arity ∧ arity ≤ 6)
        ∨ (c = Classification.readonly ∧ arity ≤ 6)
        ∨ (c = Classification.noreturn ∧ arity = 1)) := by
  cases c <;> rcases arity with _ | _ | _ | _ | _ | _ | _ | _ | n <;>
    first
    | decide
    | (show (none : Option (Nat → List Nat → AsmCall)).isSome = true ↔ _
       simp)

/-- Claim C5: at every arity for which the riscv32 inline backend has both a
Plain and a ReadOnly function, the two transcribe to the same register
inputs, the same template and the same output register — hence the same
machine behavior under every kernel action and start state — and differ
only by the `readonly` option handed to the optimizer. -/
theorem c5_readonly_same_behavior (arity : Nat)
    (fP fR : Nat → List Nat → AsmCall)
    (hP : riscv32_backend arity Classification.plain = some fP)
    (hR : riscv32_backend arity Classification.readonly = some fR)
    (nr : Nat) (args : List Nat) :
    (fR nr args).ins = (fP nr args).ins
    ∧ (fR nr args).template = (fP nr args).template
    ∧ (fR nr args).outReg = (fP nr args).outReg
    ∧ (fR nr args).opts = (fP nr args).opts ++ [AsmOpt.readonly]
    ∧ ∀ (kernel : Kernel) (s : RegFile),
        runAsm kernel (fR nr args) s = runAsm kernel (fP nr args) s := by
  rcases arity with _ | _ | _ | _ | _ | _ | _ | n <;>
    first
    | exact Option.noConfusion hP
    | (obtain rfl := Option.some.inj hP
       obtain rfl := Option.some.inj hR
       exact ⟨rfl, rfl, rfl, rfl, fun kernel s => rfl⟩)

/-- Witness for C5 at arity 1: with operation number 93 and argument 7,
the ReadOnly call behaves identically to the Plain call under the identity
kernel action. -/
theorem c5_readonly_same_behavior_witness :
    runAsm (fun st => st) (syscall1_readonly 93 7) (fun _ => 0)
      = runAsm (fun st => st) (syscall1 93 7) (fun _ => 0) := by
  exact (c5_readonly_same_behavior 1
    (fun nr a => syscall1 nr (a.getD 0 0))
    (fun nr a => syscall1_readonly nr (a.getD 0 0)) rfl rfl 93 [7]).2.2.2.2
    (fun st => st) (fun _ => 0)

/-- Claim C6: `syscall1_noreturn` places the operation number in `a7` and its one
argument in `a0`, its template is the single trap instruction, it has no
output operand and yields no value back to the caller under any kernel
action, and it declares the `noreturn` option — the contract (with the
Rust return type `!`) that no code placed after the call site on that
control path is reachable. -/
theorem c6_noreturn (nr a0 : Nat) (s : RegFile) (kernel : Kernel) :
    applyIns (syscall1_noreturn nr a0).ins s Reg.a7 = nr
    ∧ applyIns (syscall1_noreturn nr a0).ins s Reg.a0 = a0
    ∧ (syscall1_noreturn nr a0).template = [Instr.ecall]
    ∧ (syscall1_noreturn nr a0).outReg = none
    ∧ runAsm kernel (syscall1_noreturn nr a0) s = none
    ∧ (syscall1_noreturn nr a0).opts = [AsmOpt.noreturn] :=
  ⟨rfl, rfl, rfl, rfl, rfl, rfl⟩

/-- Claim C10: every returning invocation function of the riscv32 inline backend
(Plain and ReadOnly, all arities) declares the `nostack` and
`preserves_flags` options; the NoReturn variant alone omits them,
declaring only `noreturn`. -/
theorem c10_asm_options (arity : Nat) (c : Classification)
    (f : Nat → List Nat → AsmCall) (h : riscv32_backend arity c = some f)
    (nr : Nat) (args : List Nat) :
    (c ≠ Classification.noreturn →
      AsmOpt.nostack ∈ (f nr args).opts ∧ AsmOpt.preserves_flags ∈ (f nr args).opts)
    ∧ (c = Classification.noreturn →
      (f nr args).opts = [AsmOpt.noreturn]
      ∧ AsmOpt.nostack ∉ (f nr args).opts
      ∧ AsmOpt.preserves_flags ∉ (f nr args).opts) := by
  obtain ⟨-, -, -, -, -, hpl, hro, hnoret, -⟩ :=
    riscv32_backend_cases arity c f h nr args (fun _ => 0)
  constructor
  · intro hc
    cases c
    · rw [hpl rfl]
      exact ⟨by simp, by simp⟩
    · rw [hro rfl]
      exact ⟨by simp, by simp⟩
    · exact absurd rfl hc
  · intro hc
    have hn := (hnoret hc).2
    rw [hn]
    exact ⟨rfl, by simp, by simp⟩

/-- Witness for C10: `syscall3` carries `nostack` and `preserves_flags`,
and `syscall1_noreturn` carries only `noreturn`. -/
theorem c10_asm_options_witness :
    (AsmOpt.nostack ∈ (syscall3 1 2 3 4).opts
      ∧ AsmOpt.preserves_flags ∈ (syscall3 1 2 3 4).opts)
    ∧ (syscall1_noreturn 1 2).opts = [AsmOpt.noreturn] := by
  refine ⟨?_, ?_⟩
  · exact (c10_asm_options 3 Classification.plain
      (fun nr a => syscall3 nr (a.getD 0 0) (a.getD 1 0) (a.getD 2 0)) rfl 1
      [2, 3, 4]).1 (by decide)
  · exact ((c10_asm_options 1 Classification.noreturn
      (fun nr a => syscall1_noreturn nr (a.getD 0 0)) rfl 1 [2]).2 rfl).1

/-- Mapping a function over a list commutes with positional lookup, within
the list's length. -/
theorem getD_map_of_lt (g : Nat → Nat) (l : List Nat) (i : Nat)
    (hi : i < l.length) : (l.map g).getD i 0 = g (l.getD i 0) := by
  induction l generalizing i with
  | nil => simp at hi
  | cons x t ih =>
    cases i with
    | zero => rfl
    | succ j => exact ih j (by simpa using hi)

/-- Claim C4: each member of the dispatch family resolves the symbolic name
through the architecture's operation-number table, marshals the arguments
in left-to-right positional order into the argument registers, calls the
backend function of matching arity and classification, and hands the
backend call's raw result word back unchanged: the dispatched result is
exactly the `a0` value the kernel produced from the register state holding
the converted operation number in `a7` and the converted arguments in
their positional registers. -/
theorem c4_dispatch (arity : Nat) (c : Classification)
    (f : Nat → List Nat → AsmCall) (h : riscv32_backend arity c = some f)
    (hc : c ≠ Classification.noreturn)
    (kernel : Kernel) (s : RegFile) (table : String → Nat)
    (nrConv argConv : Nat → Nat) (name : String) (args : List Nat) :
    invoke kernel s table nrConv argConv arity c name args
      = runAsm kernel (f (nrConv (table name)) (args.map argConv)) s
    ∧ invoke kernel s table nrConv argConv arity c name args
      = some (kernel
          (applyIns (f (nrConv (table name)) (args.map argConv)).ins s) Reg.a0)
    ∧ applyIns (f (nrConv (table name)) (args.map argConv)).ins s Reg.a7
      = nrConv (table name)
    ∧ (∀ i, i < arity → i < args.length →
        applyIns (f (nrConv (table name)) (args.map argConv)).ins s (argRegName i)
          = argConv (args.getD i 0)) := by
  obtain ⟨-, -, -, ha7, hargs, -, -, -, hret⟩ :=
    riscv32_backend_cases arity c f h (nrConv (table name)) (args.map argConv) s
  obtain ⟨-, hrun⟩ := hret hc
  have hinv : invoke kernel s table nrConv argConv arity c name args
      = runAsm kernel (f (nrConv (table name)) (args.map argConv)) s := by
    unfold invoke
    rw [h]
  refine ⟨hinv, by rw [hinv, hrun kernel], ha7, fun i hi hil => ?_⟩
  rw [hargs i hi]
  exact getD_map_of_lt argConv args i hil

/-- Witness for C4: dispatching the arity-2 Plain shape with a table that
resolves the name to 17, identity conversions and arguments 5, 7 yields
the `a0` of the state the kernel saw, which held 17 in `a7`, 5 in `a0`
and 7 in `a1`. -/
theorem c4_dispatch_witness :
    invoke (fun st => st) (fun _ => 0) (fun _ => 17) (fun n => n) (fun a => a) 2
      Classification.plain "write" [5, 7]
      = some (applyIns (syscall2 17 5 7).ins (fun _ => 0) Reg.a0) := by
  exact (c4_dispatch 2 Classification.plain
    (fun nr a => syscall2 nr (a.getD 0 0) (a.getD 1 0)) rfl (by decide)
    (fun st => st) (fun _ => 0) (fun _ => 17) (fun n => n) (fun a => a) "write"
    [5, 7]).2.1

/-- Claim C7: backend selection is a pure function of the build target — zero
runtime cost in the model.  32-bit x86 selects the vDSO fast-path backend
for both values of inline-assembly support; every other architecture named
in `arch/mod.rs` selects the inline backend exactly when the target
supports inline assembly and the out-of-line backend otherwise; and the
out-of-line backend's (spec-modelled) function surface coincides with the
inline backend's. -/
theorem c7_backend_selection :
    (∀ asmSupported : Bool,
      choose TargetArch.x86 asmSupported = BackendChoice.x86ViaVdso)
    ∧ (∀ arch : TargetArch, arch ≠ TargetArch.x86 →
        ∀ asmSupported : Bool,
          choose arch asmSupported
            = if asmSupported then BackendChoice.inlineAsm
              else BackendChoice.outlineAsm)
    ∧ (∀ (arity : Nat) (c : Classification),
        (outline_surface arity c).isSome = (riscv32_backend arity c).isSome) := by
  refine ⟨fun _ => rfl, fun arch hne asmS => ?_, fun arity c => rfl⟩
  cases arch <;> first | rfl | exact absurd rfl hne

/-- Witness for C7: x86 selects the vDSO fast path even without inline
assembly; riscv64 with inline assembly selects the inline backend; arm
without selects the out-of-line backend. -/
theorem c7_backend_selection_witness :
    choose TargetArch.x86 false = BackendChoice.x86ViaVdso
    ∧ choose TargetArch.riscv64 true = BackendChoice.inlineAsm
    ∧ choose TargetArch.arm false = BackendChoice.outlineAsm := by
  refine ⟨c7_backend_selection.1 false, ?_, ?_⟩
  · exact c7_backend_selection.2.1 TargetArch.riscv64 (by decide) true
  · exact c7_backend_selection.2.1 TargetArch.arm (by decide) false

/-- Claim C1: `from_raw` classifies a raw kernel result word as an error exactly
when its signed interpretation lies in the closed range `[-4095, -1]`, and
then the error identifier is the word's magnitude; every other raw word in
range — zero, positive, or of larger negative magnitude — decodes to
success with the word itself as payload. -/
theorem c1_error_band (width w : Nat) (hwidth : 13 ≤ width)
    (hw : w < 2 ^ width) :
    ((-4095 ≤ toSigned width w ∧ toSigned width w ≤ -1) →
        from_raw width w = SyscallResult.error (toSigned width w).natAbs)
    ∧ (¬(-4095 ≤ toSigned width w ∧ toSigned width w ≤ -1) →
        from_raw width w = SyscallResult.success w) := by
  have hW : 2 ^ width = 2 ^ (width - 1) * 2 := by
    rw [← pow_succ]
    congr 1
    omega
  have hH : 4096 ≤ 2 ^ (width - 1) := by
    calc (4096 : Nat) = 2 ^ 12 := by norm_num
    _ ≤ 2 ^ (width - 1) := Nat.pow_le_pow_right (by norm_num) (by omega)
  by_cases hlt : w < 2 ^ (width - 1)
  · have hnb : ¬ 2 ^ width - 4095 ≤ w := by omega
    simp only [toSigned, from_raw]
    rw [if_pos hlt, if_neg hnb]
    refine ⟨fun hband => ?_, fun _ => rfl⟩
    exfalso
    omega
  · simp only [toSigned, from_raw]
    rw [if_neg hlt]
    by_cases hband : 2 ^ width - 4095 ≤ w
    · rw [if_pos hband]
      refine ⟨fun hb => ?_, fun hnb => ?_⟩
      · have habs : ((w : Int) - ((2 ^ width : Nat) : Int)).natAbs
            = 2 ^ width - w := by omega
        rw [habs]
      · exfalso
        exact hnb ⟨by omega, by omega⟩
    · rw [if_neg hband]
      refine ⟨fun hb => ?_, fun _ => rfl⟩
      exfalso
      omega

/-- Witness for C1 at width 32: the raw word `2 ^ 32 - 2` (signed value
-2, inside the band) decodes to error 2. -/
theorem c1_error_band_witness :
    from_raw 32 (2 ^ 32 - 2) = SyscallResult.error 2 := by
  have h := (c1_error_band 32 (2 ^ 32 - 2) (by norm_num) (by norm_num)).1
    (by decide)
  have habs : (toSigned 32 (2 ^ 32 - 2)).natAbs = 2 := by decide
  rw [habs] at h
  exact h

/-- Claim C8 counterexample: at the architecture's maximum unsigned word value
(riscv32: `2 ^ 32 - 1`, signed value -1), the round trip fails: the raw
word decodes to error 1, not to the successful payload `2 ^ 32 - 1`. -/
theorem c8_roundtrip_counterexample :
    from_raw 32 (to_raw (2 ^ 32 - 1)) = SyscallResult.error 1
    ∧ from_raw 32 (to_raw (2 ^ 32 - 1))
        ≠ SyscallResult.success (2 ^ 32 - 1) := by
  constructor <;> decide

/-- Claim C8 amended: the argument conversion `to_raw` is total and lossless
(injective), and the round trip `from_raw (to_raw v) = success v` holds on
every word width for every value whose raw word lies outside the error
band — in particular 0, valid addresses and small lengths; it fails
exactly on the 4095 top word values, among them the maximum unsigned word
value, which `from_raw` classifies as errors. -/
theorem c8_roundtrip_amended (width v : Nat) (hv : v + 4095 < 2 ^ width) :
    from_raw width (to_raw v) = SyscallResult.success v
    ∧ ∀ a b : Nat, to_raw a = to_raw b → a = b := by
  constructor
  · unfold from_raw to_raw
    rw [if_neg (by omega)]
  · intro a b hab
    exact hab

/-- Witness for C8 on the representative value set at width 32: zero, an
address (4096) and a small length (4) all round-trip. -/
theorem c8_roundtrip_amended_witness :
    from_raw 32 (to_raw 0) = SyscallResult.success 0
    ∧ from_raw 32 (to_raw 4096) = SyscallResult.success 4096
    ∧ from_raw 32 (to_raw 4) = SyscallResult.success 4 :=
  ⟨(c8_roundtrip_amended 32 0 (by norm_num)).1,
    (c8_roundtrip_amended 32 4096 (by norm_num)).1,
    (c8_roundtrip_amended 32 4 (by norm_num)).1⟩

/-- One step of the `test_dir` loop sets `saw_dot` exactly when the entry
is ".", and otherwise preserves it. -/
theorem scanEntry_dot (st : DirScan) (x : String) :
    (scanEntry st x).saw_dot = (st.saw_dot || decide (x = ".")) := by
  unfold scanEntry
  by_cases h1 : x = "." <;> by_cases h2 : x = ".." <;>
    by_cases h3 : x = "Cargo.toml" <;> simp [h1, h2, h3]

/-- One step of the `test_dir` loop sets `saw_dotdot` exactly when the
entry is "..", and otherwise preserves it. -/
theorem scanEntry_dotdot (st : DirScan) (x : String) :
    (scanEntry st x).saw_dotdot = (st.saw_dotdot || decide (x = "..")) := by
  unfold scanEntry
  by_cases h1 : x = "." <;> by_cases h2 : x = ".." <;>
    by_cases h3 : x = "Cargo.toml" <;> simp [h1, h2, h3]

/-- One step of the `test_dir` loop sets `saw_cargo_toml` exactly when the
entry is "Cargo.toml", and otherwise preserves it. -/
theorem scanEntry_cargo (st : DirScan) (x : String) :
    (scanEntry st x).saw_cargo_toml
      = (st.saw_cargo_toml || decide (x = "Cargo.toml")) := by
  unfold scanEntry
  by_cases h1 : x = "." <;> by_cases h2 : x = ".." <;>
    by_cases h3 : x = "Cargo.toml" <;> simp [h1, h2, h3]

/-- The `test_dir` loop sees "." exactly when some entry is ".". -/
theorem foldl_scan_dot (l : List String) (st : DirScan) :
    (l.foldl scanEntry st).saw_dot
      = (st.saw_dot || l.any fun x => decide (x = ".")) := by
  induction l generalizing st with
  | nil => simp [List.foldl_nil]
  | cons x t ih => simp [List.foldl_cons, ih, scanEntry_dot, Bool.or_assoc]

/-- The `test_dir` loop sees ".." exactly when some entry is "..". -/
theorem foldl_scan_dotdot (l : List String) (st : DirScan) :
    (l.foldl scanEntry st).saw_dotdot
      = (st.saw_dotdot || l.any fun x => decide (x = "..")) := by
  induction l generalizing st with
  | nil => simp [List.foldl_nil]
  | cons x t ih => simp [List.foldl_cons, ih, scanEntry_dotdot, Bool.or_assoc]

/-- The `test_dir` loop sees "Cargo.toml" exactly when some entry is
"Cargo.toml". -/
theorem foldl_scan_cargo (l : List String) (st : DirScan) :
    (l.foldl scanEntry st).saw_cargo_toml
      = (st.saw_cargo_toml || l.any fun x => decide (x = "Cargo.toml")) := by
  induction l generalizing st with
  | nil => simp [List.foldl_nil]
  | cons x t ih => simp [List.foldl_cons, ih, scanEntry_cargo, Bool.or_assoc]

/-- Claim C9: in the end-to-end scenario, the two spec-modelled opens (the
current directory via ".", then "Cargo.toml" relative to it) succeed, and
on any enumeration satisfying the spec-modelled exactly-one-occurrence
property for ".", ".." and "Cargo.toml", the transcribed `test_dir`
scanning loop observes all three entries. -/
theorem c9_end_to_end (entries : List String)
    (hspec : specDirEnumeration entries) :
    (openat_model 3 ".").isSome = true
    ∧ (openat_model 4 "Cargo.toml").isSome = true
    ∧ entries.count "." = 1 ∧ entries.count ".." = 1
    ∧ entries.count "Cargo.toml" = 1
    ∧ (test_dir_scan entries).saw_dot = true
    ∧ (test_dir_scan entries).saw_dotdot = true
    ∧ (test_dir_scan entries).saw_cargo_toml = true := by
  obtain ⟨h1, h2, h3⟩ := hspec
  have m1 : "." ∈ entries := by
    by_contra hm
    rw [List.count_eq_zero_of_not_mem hm] at h1
    exact absurd h1 (by norm_num)
  have m2 : ".." ∈ entries := by
    by_contra hm
    rw [List.count_eq_zero_of_not_mem hm] at h2
    exact absurd h2 (by norm_num)
  have m3 : "Cargo.toml" ∈ entries := by
    by_contra hm
    rw [List.count_eq_zero_of_not_mem hm] at h3
    exact absurd h3 (by norm_num)
  refine ⟨rfl, rfl, h1, h2, h3, ?_, ?_, ?_⟩
  · unfold test_dir_scan
    rw [foldl_scan_dot]
    simp only [Bool.false_or, List.any_eq_true]
    exact ⟨".", m1, by simp⟩
  · unfold test_dir_scan
    rw [foldl_scan_dotdot]
    simp only [Bool.false_or, List.any_eq_true]
    exact ⟨"..", m2, by simp⟩
  · unfold test_dir_scan
    rw [foldl_scan_cargo]
    simp only [Bool.false_or, List.any_eq_true]
    exact ⟨"Cargo.toml", m3, by simp⟩

/-- Witness for C9 on a concrete enumeration containing one ".", one "..",
one "Cargo.toml" and one other entry: the test loop sees all three. -/
theorem c9_end_to_end_witness :
    (test_dir_scan [".", "..", "Cargo.toml", "src"]).saw_dot = true
    ∧ (test_dir_scan [".", "..", "Cargo.toml", "src"]).saw_dotdot = true
    ∧ (test_dir_scan [".", "..", "Cargo.toml", "src"]).saw_cargo_toml = true := by
  have h := c9_end_to_end [".", "..", "Cargo.toml", "src"]
    ⟨by decide, by decide, by decide⟩
  exact ⟨h.2.2.2.2.2.1, h.2.2.2.2.2.2.1, h.2.2.2.2.2.2.2⟩

end RawSyscall
